import Mathlib

/-!
Verification development for the Contexto live-guessing server (src/app.py).

Modelling conventions of the shallow embedding:
* Python strings are lists of natural code points (`PyStr`); the handlers of
  the source only ever compare them for equality, filter characters by ASCII
  ranges, and lower-case ASCII letters, all of which are faithful on code
  points.
* Python dicts (which preserve insertion order, and keep the original position
  of a key when its value is overwritten) are insertion-ordered association
  lists (`dictGet`, `dictInsert`); `next(iter(d))` is the head of the list.
* Python sets used only for membership tests are lists with `setAdd`.
* External effects (the Contexto HTTP calls, the avatar download, WebSocket
  sends) are passed in as explicit result values or recorded in the output
  (`ApiCall`, `Broadcast`), so every handler becomes a pure state transformer.
-/

/-- A Python string, modelled as its list of code points. -/
abbrev PyStr := List Nat

/-- Insertion-ordered dict lookup (`d.get(k)` / `d[k]`). -/
def dictGet {β : Type} (k : PyStr) : List (PyStr × β) → Option β
  | [] => none
  | (k2, v) :: rest => if k2 = k then some v else dictGet k rest

/-- Insertion-ordered dict assignment `d[k] = v`: an existing key keeps its
position and gets the new value, a fresh key is appended at the end. -/
def dictInsert {β : Type} (k : PyStr) (v : β) : List (PyStr × β) → List (PyStr × β)
  | [] => [(k, v)]
  | (k2, v2) :: rest =>
    if k2 = k then (k, v) :: rest else (k2, v2) :: dictInsert k v rest

/-- Removal of a key (`del d[k]`, or unlinking the one cache file named by the
key). -/
def removeKey {β : Type} (k : PyStr) : List (PyStr × β) → List (PyStr × β)
  | [] => []
  | (k2, v) :: rest =>
    if k2 = k then removeKey k rest else (k2, v) :: removeKey k rest

/-- Python set insertion `s.add(x)`, as far as membership is concerned. -/
def setAdd (w : PyStr) (ws : List PyStr) : List PyStr :=
  if w ∈ ws then ws else ws ++ [w]

/-- One stored guess: the value of `game_state[\x7bguesses\x7d][word]`
(src/app.py lines 38-43). -/
structure GuessData where
  distance : Nat
  user : PyStr
  user_id : PyStr
  avatar_url : Option PyStr
deriving DecidableEq, Repr

/-- The mutable `game_state` dict of src/app.py (lines 120-124). -/
structure GameState where
  game_number : Nat
  guesses : List (PyStr × GuessData)
  guessed_words : List PyStr
deriving DecidableEq, Repr

/-- Model of `init_new_game` (src/app.py lines 138-144); the randomly drawn game number
is passed in explicitly. -/
def init_new_game (newNo : Nat) : GameState :=
  { game_number := newNo, guesses := [], guessed_words := [] }

/- ===== Word normalizer: clean_word (src/app.py lines 269-289) ===== -/

/-- Python `str.isspace` on the ASCII whitespace the source can receive. -/
def pyIsSpace (c : Nat) : Bool :=
  decide (c = 32 ∨ c = 9 ∨ c = 10 ∨ c = 13 ∨ c = 11 ∨ c = 12)

/-- Python `str.isdigit` restricted to ASCII digits. -/
def pyIsDigit (c : Nat) : Bool :=
  decide (48 ≤ c ∧ c ≤ 57)

/-- The character class `[A-Za-z]` of the regex in line 283. -/
def isAsciiLetter (c : Nat) : Bool :=
  decide ((65 ≤ c ∧ c ≤ 90) ∨ (97 ≤ c ∧ c ≤ 122))

/-- Python `str.lower` on a single ASCII code point. -/
def pyToLower (c : Nat) : Nat :=
  if 65 ≤ c ∧ c ≤ 90 then c + 32 else c

/-- Python `str.strip()`: drop leading and trailing whitespace. -/
def pyStrip (s : PyStr) : PyStr :=
  ((s.dropWhile pyIsSpace).reverse.dropWhile pyIsSpace).reverse

/-- Helper for `pySplit`: accumulates the current token (reversed). -/
def pySplitAux (acc : PyStr) : PyStr → List PyStr
  | [] => if acc.isEmpty then [] else [acc.reverse]
  | c :: rest =>
    if pyIsSpace c then
      if acc.isEmpty then pySplitAux [] rest else acc.reverse :: pySplitAux [] rest
    else
      pySplitAux (c :: acc) rest

/-- Python `str.split()` with no argument: whitespace-delimited tokens, empty
tokens discarded. -/
def pySplit (s : PyStr) : List PyStr :=
  pySplitAux [] s

/-- Model of `clean_word` (src/app.py lines 269-289): strip, reject multi-token input,
reject any digit, keep only ASCII letters, reject if fewer than 2 remain,
lower-case. -/
def clean_word (text : PyStr) : Option PyStr :=
  if (pySplit (pyStrip text)).length ≠ 1 then none
  else if (pyStrip text).any pyIsDigit then none
  else if ((pyStrip text).filter isAsciiLetter).length < 2 then none
  else some (((pyStrip text).filter isAsciiLetter).map pyToLower)

theorem pyToLower_range (c : Nat) (h : isAsciiLetter c = true) :
    97 ≤ pyToLower c ∧ pyToLower c ≤ 122 := by
  unfold isAsciiLetter at h
  unfold pyToLower
  rw [decide_eq_true_eq] at h
  split
  · omega
  · next h2 => omega

/- ===== Outbound events and external calls ===== -/

/-- One leaderboard entry of the winner broadcast (src/app.py lines 57-65). -/
structure LBEntry where
  word : PyStr
  user : PyStr
  distance : Nat
  avatar_url : Option PyStr
deriving DecidableEq, Repr

/-- The outbound broadcast events the modelled handlers can emit
(timestamps, being wall-clock metadata, are not modelled). -/
inductive Broadcast where
  | system (message : PyStr)
  | game_start (game_number : Nat)
  | guess_notification (user word : PyStr) (distance : Nat) (avatar_url : Option PyStr)
  | already_guessed (user word : PyStr) (distance : Nat) (avatar_url : Option PyStr)
  | guess_update (guesses : List (PyStr × GuessData))
  | winner (word user : PyStr) (avatar_url : Option PyStr) (leaderboard : List LBEntry)
  | hint (word : PyStr) (distance : Nat) (gifter : PyStr)
deriving DecidableEq, Repr

/-- Holds exactly on the two events of the winner sequence: the `winner`
broadcast and the `game_start` broadcast that follows a win. -/
def isWinnerOrStart : Broadcast → Bool
  | .winner _ _ _ _ => true
  | .game_start _ => true
  | _ => false

/-- A ranking-service request issued by a handler. -/
inductive ApiCall where
  | tip (game_no : Nat) (distance : Nat)
deriving DecidableEq, Repr

/- ===== Leaderboard and hint derivation ===== -/

/-- Stable insertion of one entry into a list sorted ascending by distance:
the new entry goes in front of the first entry whose distance is not smaller.
Together with `sortByDist` this is extensionally the stable ascending sort
that `sorted(..., key=lambda x: x[1][distance])` performs in line 52. -/
def insertByDist (x : PyStr × GuessData) :
    List (PyStr × GuessData) → List (PyStr × GuessData)
  | [] => [x]
  | y :: ys =>
    if x.2.distance ≤ y.2.distance then x :: y :: ys else y :: insertByDist x ys

/-- Stable ascending sort by distance (src/app.py lines 52-55). -/
def sortByDist : List (PyStr × GuessData) → List (PyStr × GuessData)
  | [] => []
  | x :: xs => insertByDist x (sortByDist xs)

/-- The winner leaderboard (src/app.py lines 51-65): the guesses dict sorted
ascending by distance, truncated to 3, projected to entry dicts. -/
def leaderboard (guesses : List (PyStr × GuessData)) : List LBEntry :=
  ((sortByDist guesses).take 3).map fun p =>
    { word := p.1, user := p.2.user, distance := p.2.distance,
      avatar_url := p.2.avatar_url }

/-- The distance of the closest guess:
`min(game_state[\x7bguesses\x7d].items(), key=lambda x: x[1][\x7bdistance\x7d])`
(src/app.py lines 399-400 and 560-561), on the distance projection. -/
def lowestDistance : List (PyStr × GuessData) → Nat
  | [] => 0
  | [p] => p.2.distance
  | p :: q :: rest => min p.2.distance (lowestDistance (q :: rest))

/-- The hint-distance derivation shared by `on_gift` and `handle_free_hint`:
`max(1, lowest_distance // 2)` over the recorded guesses, and an explicit
no-guesses signal (`none`) when the round has no guesses
(src/app.py lines 394-403 and 550-564). -/
def currentHintDistance (gs : List (PyStr × GuessData)) : Option Nat :=
  if gs.isEmpty then none else some (max 1 (lowestDistance gs / 2))

/- ===== Avatar cache (src/app.py lines 126-205) ===== -/

/-- The constant `MAX_AVATAR_CACHE` (src/app.py line 129). -/
def MAX_AVATAR_CACHE : Nat := 50

/-- The two tiers of the avatar cache: the in-memory insertion-ordered dict
`avatar_cache` and the files of `AVATAR_CACHE_DIR`. A file named by the
16-hex-character hash of a user id is modelled as keyed by the user id
itself (the hash is injective up to md5 collisions, which are out of
scope). -/
structure CacheState where
  memory : List (PyStr × PyStr)
  files : List (PyStr × PyStr)
deriving DecidableEq, Repr

/-- Model of `get_cached_avatar` (src/app.py lines 166-205). The outcome of the
externally supplied `fetch_func` is passed in as `fetched` (`none` covers
both a `None` result and a raised exception, which line 202 turns into
`None`). Returns the updated cache state and the returned avatar. -/
def get_cached_avatar (st : CacheState) (user_id : PyStr) (fetched : Option PyStr) :
    CacheState × Option PyStr :=
  match dictGet user_id st.memory with
  | some av => (st, some av)
  | none =>
    match dictGet user_id st.files with
    | some av =>
      ({ st with memory := dictInsert user_id av st.memory }, some av)
    | none =>
      match fetched with
      | none => (st, none)
      | some av =>
        let st2 :=
          if MAX_AVATAR_CACHE ≤ st.memory.length then
            match st.memory with
            | [] => st
            | (oldest, _) :: restMem =>
              { memory := restMem, files := removeKey oldest st.files }
          else st
        ({ memory := dictInsert user_id av st2.memory,
           files := dictInsert user_id av st2.files }, some av)

/- ===== Broadcast hub (src/app.py lines 208-220) ===== -/

/-- Model of `broadcast_to_clients` (src/app.py lines 208-220). Connections are abstract
handles, modelled as naturals; `ok c = true` means `ws.send_json` succeeds for
client `c`. Returns `(attempted, delivered, live)`: the clients a send was
attempted to, the clients that received the event, and the live set after
`difference_update(disconnected)`. -/
def broadcast_to_clients (clients : List Nat) (ok : Nat → Bool) :
    List Nat × List Nat × List Nat :=
  if clients.isEmpty then ([], [], clients)
  else
    let disconnected := clients.filter fun c => !(ok c)
    (clients, clients.filter ok,
      clients.filter fun c => !(decide (c ∈ disconnected)))

/- ===== Queue worker (src/app.py lines 1-97) ===== -/

/-- One queued guess, the tuple `(event, word, avatar_url)` put on `api_queue`
(src/app.py line 377), with the event reduced to the two user fields the
worker reads. -/
structure QueueItem where
  word : PyStr
  user : PyStr
  user_id : PyStr
  avatar_url : Option PyStr
deriving DecidableEq, Repr

/-- One iteration of `process_guess_queue` on a dequeued item
(src/app.py lines 11-93). `apiResult` is the distance returned by
`fetch_contexto_api` (`none` for a failed or malformed response, line 17);
`newGameNo` is the game number `init_new_game` would draw if this guess wins.
Returns the resulting game state and the emitted broadcasts in order. -/
def processItem (g : GameState) (word user uid : PyStr) (av : Option PyStr)
    (apiResult : Option Nat) (newGameNo : Nat) : GameState × List Broadcast :=
  match apiResult with
  | none => (g, [])
  | some distance =>
    let note := Broadcast.guess_notification user word distance av
    let g2 : GameState :=
      { g with guessed_words := setAdd word g.guessed_words,
               guesses := dictInsert word
                 { distance := distance, user := user, user_id := uid,
                   avatar_url := av } g.guesses }
    if distance = 0 then
      (init_new_game newGameNo,
       [note, Broadcast.winner word user av (leaderboard g2.guesses),
        Broadcast.game_start newGameNo])
    else
      (g2, [note, Broadcast.guess_update g2.guesses])

/- ===== Comment intake (src/app.py lines 322-381) ===== -/

/-- Model of `on_comment` (src/app.py lines 322-381): normalizes the comment, rejects
duplicates of already-guessed words (emitting an already-guessed
notification), otherwise resolves the avatar and enqueues the guess.
`fetchedAvatar` is the result of the inline `fetch_avatar` closure. Returns
the updated avatar cache, the enqueued item if any, and the emitted
broadcasts. -/
def on_comment (g : GameState) (cache : CacheState) (comment : PyStr)
    (user uid : PyStr) (fetchedAvatar : Option PyStr) :
    CacheState × Option QueueItem × List Broadcast :=
  match clean_word comment with
  | none => (cache, none, [])
  | some word =>
    if word ∈ g.guessed_words then
      match dictGet word g.guesses with
      | some existing =>
        let res := get_cached_avatar cache uid fetchedAvatar
        (res.1, none,
         [Broadcast.already_guessed user word existing.distance res.2])
      | none => (cache, none, [])
    else
      let res := get_cached_avatar cache uid fetchedAvatar
      (res.1, some { word := word, user := user, user_id := uid,
                     avatar_url := res.2 }, [])

/- ===== Gift handler (src/app.py lines 384-461) ===== -/

/-- Result of one run of the gift handler. -/
structure GiftResult where
  game : GameState
  cache : CacheState
  broadcasts : List Broadcast
  calls : List ApiCall
deriving DecidableEq, Repr

/-- Model of `on_gift` (src/app.py lines 384-461): ignores a still-streaking streakable
gift, otherwise derives the hint distance from the closest guess, fetches a
tip (`tipResult` gives the response of `fetch_contexto_tip` per requested
distance), broadcasts the hint, and auto-guesses the tip word for the gifter
when it is not already guessed. `fetchedAvatar` is the result of the inline
avatar fetch. -/
def on_gift (g : GameState) (cache : CacheState) (streakable streaking : Bool)
    (user uid : PyStr) (tipResult : Nat → Option PyStr)
    (fetchedAvatar : Option PyStr) : GiftResult :=
  if streakable && streaking then
    { game := g, cache := cache, broadcasts := [], calls := [] }
  else if g.guesses.isEmpty then
    { game := g, cache := cache, broadcasts := [], calls := [] }
  else
    let hint_distance := max 1 (lowestDistance g.guesses / 2)
    let call := ApiCall.tip g.game_number hint_distance
    match tipResult hint_distance with
    | none => { game := g, cache := cache, broadcasts := [], calls := [call] }
    | some tip_word =>
      let hintB := Broadcast.hint tip_word hint_distance user
      if tip_word ∈ g.guessed_words then
        { game := g, cache := cache, broadcasts := [hintB], calls := [call] }
      else
        let res := get_cached_avatar cache uid fetchedAvatar
        let g2 : GameState :=
          { g with guessed_words := setAdd tip_word g.guessed_words,
                   guesses := dictInsert tip_word
                     { distance := hint_distance, user := user, user_id := uid,
                       avatar_url := res.2 } g.guesses }
        { game := g2, cache := res.1,
          broadcasts := [hintB, Broadcast.guess_update g2.guesses],
          calls := [call] }

/- ===== Worker dispatch timing (src/app.py lines 1-32 and 131-135) ===== -/

/-- The constant `MIN_REQUEST_INTERVAL` of src/app.py line 135, in milliseconds. -/
def MIN_REQUEST_INTERVAL_MS : Nat := 100

/-- Start times (ms) of the external dispatches of the worker loop when the
queue stays non-empty. The loop body of `process_guess_queue` dequeues an
item and calls `fetch_contexto_api` immediately: it never acquires
`api_semaphore`, never reads `last_request_time`, and never sleeps for
`MIN_REQUEST_INTERVAL` (none of those names occurs in the loop), so the next
dispatch starts exactly when the previous call returns. `durations` lists
the response time of each call. -/
def dispatchStarts (durations : List Nat) : List Nat :=
  (List.range durations.length).map fun i => (durations.take i).sum

/- ===== Helper lemmas ===== -/

theorem dictGet_cons_none {β : Type} {k k2 : PyStr} {v : β} {l : List (PyStr × β)}
    (h : dictGet k ((k2, v) :: l) = none) : k2 ≠ k ∧ dictGet k l = none := by
  unfold dictGet at h
  split at h
  · cases h
  · next hne => exact ⟨hne, h⟩

theorem dictInsert_of_get_none {β : Type} (k : PyStr) (v : β)
    (l : List (PyStr × β)) (h : dictGet k l = none) :
    dictInsert k v l = l ++ [(k, v)] := by
  induction l with
  | nil => rfl
  | cons p rest ih =>
    obtain ⟨k2, v2⟩ := p
    obtain ⟨hne, hrest⟩ := dictGet_cons_none h
    unfold dictInsert
    rw [if_neg hne, ih hrest]
    rfl

theorem dictGet_removeKey_none {β : Type} (k k0 : PyStr) (l : List (PyStr × β))
    (h : dictGet k l = none) : dictGet k (removeKey k0 l) = none := by
  induction l with
  | nil => rfl
  | cons p rest ih =>
    obtain ⟨k2, v2⟩ := p
    obtain ⟨hne, hrest⟩ := dictGet_cons_none h
    unfold removeKey
    split
    · exact ih hrest
    · unfold dictGet
      rw [if_neg hne]
      exact ih hrest

theorem dictGet_dictInsert {β : Type} (w k : PyStr) (v : β)
    (l : List (PyStr × β)) :
    dictGet w (dictInsert k v l) = if w = k then some v else dictGet w l := by
  induction l with
  | nil =>
    by_cases h : w = k
    · subst h
      simp [dictGet, dictInsert]
    · simp [dictGet, dictInsert, h, Ne.symm h]
  | cons p rest ih =>
    obtain ⟨k2, v2⟩ := p
    by_cases h2 : k2 = k
    · subst h2
      by_cases h : w = k2
      · subst h
        simp [dictGet, dictInsert]
      · simp [dictGet, dictInsert, h, Ne.symm h]
    · by_cases h : w = k2
      · subst h
        simp [dictGet, dictInsert, h2, Ne.symm h2]
      · simp [dictGet, dictInsert, h2, h, Ne.symm h, ih]

theorem mem_insertByDist (x y : PyStr × GuessData)
    (l : List (PyStr × GuessData)) :
    y ∈ insertByDist x l ↔ y = x ∨ y ∈ l := by
  induction l with
  | nil => simp [insertByDist]
  | cons z zs ih =>
    unfold insertByDist
    split
    · simp [List.mem_cons]
    · simp only [List.mem_cons, ih]
      tauto

theorem sorted_insertByDist (x : PyStr × GuessData)
    (l : List (PyStr × GuessData))
    (h : l.Pairwise fun a b => a.2.distance ≤ b.2.distance) :
    (insertByDist x l).Pairwise fun a b => a.2.distance ≤ b.2.distance := by
  induction l with
  | nil => simp [insertByDist]
  | cons z zs ih =>
    rw [List.pairwise_cons] at h
    unfold insertByDist
    split
    · next hle =>
      rw [List.pairwise_cons]
      refine ⟨?_, List.pairwise_cons.mpr h⟩
      intro b hb
      rcases List.mem_cons.mp hb with rfl | hb2
      · exact hle
      · exact Nat.le_trans hle (h.1 b hb2)
    · next hgt =>
      rw [List.pairwise_cons]
      refine ⟨?_, ih h.2⟩
      intro b hb
      rcases (mem_insertByDist x b zs).mp hb with rfl | hb2
      · omega
      · exact h.1 b hb2

theorem sorted_sortByDist (l : List (PyStr × GuessData)) :
    (sortByDist l).Pairwise fun a b => a.2.distance ≤ b.2.distance := by
  induction l with
  | nil => simp [sortByDist]
  | cons x xs ih => exact sorted_insertByDist x (sortByDist xs) ih

theorem filter_insertByDist (d : Nat) (x : PyStr × GuessData)
    (l : List (PyStr × GuessData)) :
    (insertByDist x l).filter (fun p => p.2.distance == d) =
      if x.2.distance == d then
        x :: l.filter (fun p => p.2.distance == d)
      else l.filter (fun p => p.2.distance == d) := by
  induction l with
  | nil => simp [insertByDist, List.filter_cons]
  | cons z zs ih =>
    unfold insertByDist
    split
    · next hle => rw [List.filter_cons]
    · next hgt =>
      rw [List.filter_cons, List.filter_cons, ih]
      by_cases hx : x.2.distance = d
      · have hz : ¬ z.2.distance = d := by omega
        simp [hx, hz]
      · simp [hx]

theorem filter_sortByDist (d : Nat) (l : List (PyStr × GuessData)) :
    (sortByDist l).filter (fun p => p.2.distance == d) =
      l.filter (fun p => p.2.distance == d) := by
  induction l with
  | nil => rfl
  | cons x xs ih =>
    show (insertByDist x (sortByDist xs)).filter _ = _
    rw [filter_insertByDist, List.filter_cons, ih]

theorem lowestDistance_le (gs : List (PyStr × GuessData)) :
    ∀ p ∈ gs, lowestDistance gs ≤ p.2.distance := by
  induction gs with
  | nil => intro p hp; cases hp
  | cons x xs ih =>
    intro p hp
    cases xs with
    | nil =>
      rcases List.mem_cons.mp hp with rfl | h2
      · exact Nat.le_refl _
      · cases h2
    | cons y ys =>
      rcases List.mem_cons.mp hp with rfl | h2
      · show min p.2.distance (lowestDistance (y :: ys)) ≤ p.2.distance
        omega
      · have := ih p h2
        show min x.2.distance (lowestDistance (y :: ys)) ≤ p.2.distance
        omega

theorem lowestDistance_mem (gs : List (PyStr × GuessData)) (h : gs ≠ []) :
    ∃ p ∈ gs, p.2.distance = lowestDistance gs := by
  induction gs with
  | nil => exact absurd rfl h
  | cons x xs ih =>
    cases xs with
    | nil => exact ⟨x, List.mem_cons_self x [], rfl⟩
    | cons y ys =>
      obtain ⟨q, hq, hqd⟩ := ih (by simp)
      by_cases hc : x.2.distance ≤ lowestDistance (y :: ys)
      · refine ⟨x, List.mem_cons_self _ _, ?_⟩
        show x.2.distance = min x.2.distance (lowestDistance (y :: ys))
        omega
      · refine ⟨q, List.mem_cons_of_mem _ hq, ?_⟩
        show q.2.distance = min x.2.distance (lowestDistance (y :: ys))
        omega

/- ===== Concrete states used by witnesses and counterexamples ===== -/

/-- An empty avatar cache. -/
def emptyCache : CacheState := ⟨[], []⟩

/-- A round that already contains a winning record: the word `aa` was guessed
at distance 0. -/
def stWin : GameState :=
  { game_number := 7,
    guesses := [([97, 97], ⟨0, [], [], none⟩)],
    guessed_words := [[97, 97]] }

/-- A round in which the word `aa` is recorded at distance 3 by user `v`. -/
def stDup : GameState :=
  { game_number := 3,
    guesses := [([97, 97], ⟨3, [118], [118], none⟩)],
    guessed_words := [[97, 97]] }

/-- A round with a single guess at distance 7. -/
def stSeven : GameState :=
  { game_number := 5,
    guesses := [([97, 97], ⟨7, [], [], none⟩)],
    guessed_words := [[97, 97]] }

/-- A memory tier holding exactly 50 distinct entries, in insertion order. -/
def mem50 : List (PyStr × PyStr) := (List.range 50).map fun i => ([i], [0])

/-- A cache whose memory tier is at capacity and whose file tier holds one
entry for a participant that is not in memory (for example left over from an
earlier run, since `init_avatar_cache` never clears the directory). -/
def cacheFull : CacheState := ⟨mem50, [([50], [7])]⟩

/-- A cache at capacity with an empty file tier. -/
def cacheNoFiles : CacheState := ⟨mem50, []⟩

/-- The guesses of the leaderboard example of the spec: `a` at 5, `b` at 2,
`c` at 9, `d` at 2, inserted in that order (so `b` before `d`). -/
def gsEx : List (PyStr × GuessData) :=
  [([97], ⟨5, [], [], none⟩), ([98], ⟨2, [], [], none⟩),
   ([99], ⟨9, [], [], none⟩), ([100], ⟨2, [], [], none⟩)]

/- ===== C1 ===== -/

/-- C1 (counterexample): the claim says that once a winning (distance 0)
record exists in a round, every subsequent attempt to record a guess in that
round is rejected with a round-closed outcome and leaves `guesses` unchanged.
In the code there is no such rejection: in the state `stWin`, which holds a
winning record, a non-streak gift whose tip word is new inserts that word
into the guesses of the very same round. -/
theorem C1_counterexample :
    dictGet [97, 97] stWin.guesses = some ⟨0, [], [], none⟩ ∧
    (on_gift stWin emptyCache false false [] [] (fun _ => some [98, 98])
        none).game.guesses ≠ stWin.guesses := by
  decide

/-- C1 (amended): the worker itself never records a later queue item into a
won round, but only because processing a winning guess replaces the round
with a freshly initialized one before the next item is dequeued; no
round-closed rejection outcome exists, and the gift auto-guess path can still
insert into the won round before that replacement (see the counterexample). -/
theorem C1_winner_replaces_round (g : GameState) (word user uid : PyStr)
    (av : Option PyStr) (newGameNo : Nat) :
    (processItem g word user uid av (some 0) newGameNo).1 =
      { game_number := newGameNo, guesses := [], guessed_words := [] } ∧
    Broadcast.game_start newGameNo ∈
      (processItem g word user uid av (some 0) newGameNo).2 := by
  exact ⟨rfl, by simp [processItem]⟩

/- ===== C2 ===== -/

/-- C2: the claim says every external dispatch of the worker first takes a
permit of `api_semaphore` and waits out `MIN_REQUEST_INTERVAL` from the
previous dispatch start. The worker body references neither: with two queued
items and a first call that returns after 50 ms, the second dispatch starts
50 ms after the first, violating the claimed 100 ms minimum gap. -/
theorem C2_dispatch_gap_violation :
    dispatchStarts [50, 80] = [0, 50] ∧ 50 - 0 < MIN_REQUEST_INTERVAL_MS := by
  decide

/- ===== C3 ===== -/

/-- C3 (counterexample): the claim says a second record attempt with a word
already present in the round never changes the stored record. The queue
worker stores unconditionally: processing a queued item for the word `aa`,
which `stDup` already holds at distance 3 for user `v`, overwrites the stored
record with distance 5 and user `u`. -/
theorem C3_counterexample :
    dictGet [97, 97] stDup.guesses = some ⟨3, [118], [118], none⟩ ∧
    dictGet [97, 97]
        (processItem stDup [97, 97] [117] [117] none (some 5) 0).1.guesses =
      some ⟨5, [117], [117], none⟩ := by
  decide

/-- C3 (amended): duplicate words are rejected at intake, not at store time.
A comment whose cleaned word is already in `guessed_words` is never enqueued,
and a gift whose tip word is already in `guessed_words` leaves the round
unchanged; but the worker itself performs no duplicate check, so a queued
item whose word was recorded after it was enqueued overwrites the stored
record (see the counterexample). -/
theorem C3_intake_rejects_duplicates :
    (∀ (g : GameState) (cache : CacheState) (comment user uid : PyStr)
        (fa : Option PyStr) (w : PyStr),
      clean_word comment = some w → w ∈ g.guessed_words →
      (on_comment g cache comment user uid fa).2.1 = none) ∧
    (∀ (g : GameState) (cache : CacheState) (sb sk : Bool)
        (user uid : PyStr) (tr : Nat → Option PyStr) (fa : Option PyStr)
        (w : PyStr),
      tr (max 1 (lowestDistance g.guesses / 2)) = some w →
      w ∈ g.guessed_words →
      (on_gift g cache sb sk user uid tr fa).game = g) := by
  constructor
  · intro g cache comment user uid fa w hcw hmem
    unfold on_comment
    rw [hcw]
    simp only [if_pos hmem]
    split
    · rfl
    · rfl
  · intro g cache sb sk user uid tr fa w htip hmem
    unfold on_gift
    split
    · rfl
    · split
      · rfl
      · simp only [htip, if_pos hmem]

/-- C3 (witness for the amended theorem): in the state `stDup`, where `aa` is
already recorded, a comment reading `aa` is not enqueued, and a gift whose
tip is `aa` leaves the round unchanged. -/
theorem C3_intake_rejects_duplicates_witness :
    (on_comment stDup emptyCache [97, 97] [] [] none).2.1 = none ∧
    (on_gift stDup emptyCache false false [] [] (fun _ => some [97, 97])
        none).game = stDup := by
  constructor
  · exact C3_intake_rejects_duplicates.1 stDup emptyCache [97, 97] [] [] none
      [97, 97] (by decide) (by decide)
  · exact C3_intake_rejects_duplicates.2 stDup emptyCache false false [] []
      (fun _ => some [97, 97]) none [97, 97] rfl (by decide)

/- ===== C4 ===== -/

/-- C4 (counterexample): the claim says the memory tier never holds more than
50 entries after any resolve completes. The file-tier promotion path of
`get_cached_avatar` (src/app.py line 179) inserts into memory without any
capacity check: resolving a participant whose avatar sits only in the file
tier while the memory tier is at its capacity of 50 leaves 51 entries in
memory. -/
theorem C4_counterexample :
    cacheFull.memory.length = MAX_AVATAR_CACHE ∧
    MAX_AVATAR_CACHE <
      (get_cached_avatar cacheFull [50] none).1.memory.length := by
  decide

/-- C4 (amended): on the fetch path the capacity bound and the FIFO policy do
hold: when a fresh participant is resolved through `fetcher`, a memory tier
at or below capacity stays at or below capacity, and a memory tier at exactly
capacity 50 first evicts precisely its oldest-inserted entry from memory and
from the file tier, then appends the new entry to both; the promotion path
from the file tier, however, inserts without a capacity check (see the
counterexample). -/
theorem C4_fetch_path_fifo (st : CacheState) (uid av : PyStr)
    (hm : dictGet uid st.memory = none) (hf : dictGet uid st.files = none) :
    (st.memory.length ≤ MAX_AVATAR_CACHE →
      (get_cached_avatar st uid (some av)).1.memory.length ≤
        MAX_AVATAR_CACHE) ∧
    (∀ (k0 v0 : PyStr) (rest : List (PyStr × PyStr)),
      st.memory = (k0, v0) :: rest →
      st.memory.length = MAX_AVATAR_CACHE →
      (get_cached_avatar st uid (some av)).1 =
        ⟨rest ++ [(uid, av)], removeKey k0 st.files ++ [(uid, av)]⟩) := by
  constructor
  · intro hlen
    unfold get_cached_avatar
    simp only [hm, hf]
    by_cases hcap : MAX_AVATAR_CACHE ≤ st.memory.length
    · have h50 : st.memory.length = MAX_AVATAR_CACHE := Nat.le_antisymm hlen hcap
      rw [if_pos hcap]
      cases hmem : st.memory with
      | nil =>
        rw [hmem] at h50
        simp [MAX_AVATAR_CACHE] at h50
      | cons p restMem =>
        obtain ⟨k0, v0⟩ := p
        have hrest : dictGet uid restMem = none := by
          rw [hmem] at hm
          exact (dictGet_cons_none hm).2
        simp only [dictInsert_of_get_none uid av restMem hrest,
          List.length_append, List.length_cons, List.length_nil]
        rw [hmem] at h50
        simp only [List.length_cons] at h50
        omega
    · rw [if_neg hcap]
      simp only [dictInsert_of_get_none uid av st.memory hm,
        List.length_append, List.length_cons, List.length_nil]
      omega
  · intro k0 v0 rest hmem h50
    unfold get_cached_avatar
    simp only [hm, hf]
    rw [if_pos (by rw [h50])]
    have hrest : dictGet uid rest = none := by
      rw [hmem] at hm
      exact (dictGet_cons_none hm).2
    have hfiles : dictGet uid (removeKey k0 st.files) = none :=
      dictGet_removeKey_none uid k0 st.files hf
    rw [hmem]
    simp only [dictInsert_of_get_none uid av rest hrest,
      dictInsert_of_get_none uid av (removeKey k0 st.files) hfiles]

/-- C4 (witness for the amended theorem): resolving a 51st distinct
participant against a memory tier holding exactly the 50 entries of `mem50`
and an empty file tier evicts exactly the first-inserted entry and appends
the new one. -/
theorem C4_fetch_path_fifo_witness :
    (get_cached_avatar cacheNoFiles [50] (some [7])).1 =
      ⟨mem50.tail ++ [([50], [7])], [([50], [7])]⟩ :=
  (C4_fetch_path_fifo cacheNoFiles [50] [7] (by decide) rfl).2
    [0] [0] mem50.tail (by decide) (by decide)

/- ===== C5 ===== -/

/-- C5: for every raw input, `clean_word` either returns a string of length at
least 2 consisting only of lowercase ASCII letters (code points 97..122), or
rejects with `none`; and it rejects exactly when the trimmed input is not one
whitespace-delimited token, or some character of the trimmed input is a
digit, or fewer than 2 characters remain after stripping non-letters. Being a
Lean function, it is deterministic and total by construction. -/
theorem C5_clean_word_shape (text : PyStr) :
    (∀ w, clean_word text = some w →
      2 ≤ w.length ∧ ∀ c ∈ w, 97 ≤ c ∧ c ≤ 122) ∧
    (clean_word text = none ↔
      (pySplit (pyStrip text)).length ≠ 1 ∨
      (pyStrip text).any pyIsDigit = true ∨
      ((pyStrip text).filter isAsciiLetter).length < 2) := by
  constructor
  · intro w hw
    unfold clean_word at hw
    split at hw
    · exact absurd hw (by simp)
    · split at hw
      · exact absurd hw (by simp)
      · split at hw
        · exact absurd hw (by simp)
        · next h3 =>
          rw [Option.some.injEq] at hw
          subst hw
          constructor
          · rw [List.length_map]
            omega
          · intro c hc
            obtain ⟨c0, hc0, rfl⟩ := List.mem_map.mp hc
            exact pyToLower_range c0 (List.mem_filter.mp hc0).2
  · unfold clean_word
    split
    · next h1 => simp [h1]
    · next h1 =>
      split
      · next h2 => simp [h1, h2]
      · next h2 =>
        split
        · next h3 => simp [h1, h2, h3]
        · next h3 => simp [h1, h2, h3]

/-- C5 (witness): on the concrete input `Hi!` the normalizer returns `hi`,
which has length 2 and consists of lowercase ASCII letters. -/
theorem C5_clean_word_shape_witness :
    2 ≤ ([104, 105] : PyStr).length ∧ ∀ c ∈ ([104, 105] : PyStr), 97 ≤ c ∧ c ≤ 122 :=
  (C5_clean_word_shape [72, 105, 33]).1 [104, 105] (by decide)

/- ===== C6 ===== -/

/-- C6: the winner leaderboard is the guesses dict of the round stably sorted
ascending by distance (so ties keep insertion order: for every distance
value, the entries at that distance appear in the original dict order) and
truncated to at most 3 entries; on the guesses `a` at 5, `b` at 2, `c` at 9,
`d` at 2 with `b` inserted before `d`, it is `[b at 2, d at 2, a at 5]`. -/
theorem C6_leaderboard_sorted (gs : List (PyStr × GuessData)) :
    (leaderboard gs).length ≤ 3 ∧
    (leaderboard gs).Pairwise (fun a b => a.distance ≤ b.distance) ∧
    (∀ d, (sortByDist gs).filter (fun p => p.2.distance == d) =
      gs.filter (fun p => p.2.distance == d)) ∧
    leaderboard gsEx =
      [⟨[98], [], 2, none⟩, ⟨[100], [], 2, none⟩, ⟨[97], [], 5, none⟩] := by
  refine ⟨?_, ?_, fun d => filter_sortByDist d gs, by decide⟩
  · unfold leaderboard
    rw [List.length_map, List.length_take]
    omega
  · unfold leaderboard
    rw [List.pairwise_map]
    exact List.Pairwise.sublist (List.take_sublist 3 (sortByDist gs))
      (sorted_sortByDist gs)

/- ===== C7 ===== -/

/-- C7: the hint distance is `max(1, m / 2)` where `m` is the minimum distance
over all recorded guesses of the round (`m` is attained by some guess and is
a lower bound of all of them); a round with minimum distance 7 yields hint
distance 3 and minimum distance 1 yields 1; and an empty round yields the
explicit no-guesses signal `none`. -/
theorem C7_hint_distance (gs : List (PyStr × GuessData)) (h : gs ≠ []) :
    (∃ p ∈ gs, p.2.distance = lowestDistance gs) ∧
    (∀ p ∈ gs, lowestDistance gs ≤ p.2.distance) ∧
    currentHintDistance gs = some (max 1 (lowestDistance gs / 2)) ∧
    currentHintDistance [] = none ∧
    currentHintDistance
      [([104], ⟨9, [], [], none⟩), ([105], ⟨7, [], [], none⟩)] = some 3 ∧
    currentHintDistance [([104], ⟨1, [], [], none⟩)] = some 1 := by
  refine ⟨lowestDistance_mem gs h, lowestDistance_le gs, ?_, rfl,
    by decide, by decide⟩
  unfold currentHintDistance
  rw [if_neg]
  simp [h]

/-- C7 (witness): over the single guess of `stSeven`, at distance 7, the
minimum is attained and the derived hint distance is `max 1 (7 / 2) = 3`. -/
theorem C7_hint_distance_witness :
    currentHintDistance stSeven.guesses =
      some (max 1 (lowestDistance stSeven.guesses / 2)) :=
  (C7_hint_distance stSeven.guesses (by decide)).2.2.1

/- ===== C8 ===== -/

theorem broadcast_cons_eq (a : Nat) (as : List Nat) (ok : Nat → Bool) :
    broadcast_to_clients (a :: as) ok =
      ((a :: as), (a :: as).filter ok,
        (a :: as).filter fun c =>
          !(decide (c ∈ (a :: as).filter fun c2 => !(ok c2)))) := rfl

/-- C8: a broadcast attempts delivery to every subscriber of the snapshot
(the attempted list is the whole client list, so one failure does not abort
the sweep), every subscriber whose send succeeds receives the event and stays
in the live set, and every subscriber whose send fails is absent from the
live set used by the next broadcast; with 5 subscribers of which number 3
fails, the other 4 receive the event and 3 is pruned. -/
theorem C8_broadcast_failure_isolation :
    (∀ (clients : List Nat) (ok : Nat → Bool),
      (broadcast_to_clients clients ok).1 = clients) ∧
    (∀ (clients : List Nat) (ok : Nat → Bool) (c : Nat), c ∈ clients →
      ok c = true →
      c ∈ (broadcast_to_clients clients ok).2.1 ∧
      c ∈ (broadcast_to_clients clients ok).2.2) ∧
    (∀ (clients : List Nat) (ok : Nat → Bool) (c : Nat), c ∈ clients →
      ok c = false → c ∉ (broadcast_to_clients clients ok).2.2) ∧
    broadcast_to_clients [1, 2, 3, 4, 5] (fun c => c != 3) =
      ([1, 2, 3, 4, 5], [1, 2, 4, 5], [1, 2, 4, 5]) := by
  refine ⟨?_, ?_, ?_, by decide⟩
  · intro clients ok
    cases clients with
    | nil => rfl
    | cons a as => rw [broadcast_cons_eq]
  · intro clients ok c hc hok
    cases clients with
    | nil => cases hc
    | cons a as =>
      rw [broadcast_cons_eq]
      refine ⟨List.mem_filter.mpr ⟨hc, hok⟩, List.mem_filter.mpr ⟨hc, ?_⟩⟩
      simp only [Bool.not_eq_eq_eq_not, Bool.not_true, decide_eq_false_iff_not]
      intro habs
      have h2 := (List.mem_filter.mp habs).2
      rw [hok] at h2
      cases h2
  · intro clients ok c hc hnok
    cases clients with
    | nil => cases hc
    | cons a as =>
      rw [broadcast_cons_eq]
      intro habs
      have h2 := (List.mem_filter.mp habs).2
      simp only [Bool.not_eq_eq_eq_not, Bool.not_true,
        decide_eq_false_iff_not] at h2
      exact h2 (List.mem_filter.mpr ⟨hc, by rw [hnok]; rfl⟩)

/-- C8 (witness): with subscribers 1 and 2 and a send that succeeds for 1,
subscriber 1 both receives the event and stays live. -/
theorem C8_broadcast_failure_isolation_witness :
    1 ∈ (broadcast_to_clients [1, 2] (fun c => c != 2)).2.1 ∧
    1 ∈ (broadcast_to_clients [1, 2] (fun c => c != 2)).2.2 :=
  C8_broadcast_failure_isolation.2.1 [1, 2] (fun c => c != 2) 1
    (by decide) (by decide)

/- ===== C9 ===== -/

/-- C9: every guess record the gift handler adds (any record present after
`on_gift` that was not present before) has distance exactly
`max(1, lowestDistance / 2)`, which is at least 1 and in particular never 0;
the handler never changes the game number and never emits a `winner` or
`game_start` broadcast, so a gift auto-guess can neither win nor close the
round. -/
theorem C9_gift_distance_positive (g : GameState) (cache : CacheState)
    (sb sk : Bool) (user uid : PyStr) (tr : Nat → Option PyStr)
    (fa : Option PyStr) :
    (∀ w rec,
      dictGet w (on_gift g cache sb sk user uid tr fa).game.guesses =
        some rec →
      dictGet w g.guesses = some rec ∨
      (rec.distance = max 1 (lowestDistance g.guesses / 2) ∧
        1 ≤ rec.distance ∧ rec.distance ≠ 0)) ∧
    (on_gift g cache sb sk user uid tr fa).game.game_number =
      g.game_number ∧
    (∀ b ∈ (on_gift g cache sb sk user uid tr fa).broadcasts,
      isWinnerOrStart b = false) := by
  unfold on_gift
  split
  · exact ⟨fun w rec h => Or.inl h, rfl, by simp⟩
  · split
    · exact ⟨fun w rec h => Or.inl h, rfl, by simp⟩
    · cases htr : tr (max 1 (lowestDistance g.guesses / 2)) with
      | none =>
        simp only [htr]
        exact ⟨fun w rec h => Or.inl h, by trivial, by simp⟩
      | some tip =>
        simp only [htr]
        split
        · refine ⟨fun w rec h => Or.inl h, by trivial, ?_⟩
          intro b hb
          simp only [List.mem_singleton] at hb
          subst hb
          rfl
        · refine ⟨?_, by trivial, ?_⟩
          · intro w rec h
            simp only [dictGet_dictInsert] at h
            split at h
            · right
              rw [Option.some.injEq] at h
              subst h
              refine ⟨rfl, ?_, ?_⟩
              · show 1 ≤ max 1 (lowestDistance g.guesses / 2)
                omega
              · show max 1 (lowestDistance g.guesses / 2) ≠ 0
                omega
            · exact Or.inl h
          · intro b hb
            simp only [List.mem_cons, List.not_mem_nil, or_false] at hb
            rcases hb with rfl | rfl
            · rfl
            · rfl

/-- C9 (witness): in the round `stSeven` (minimum distance 7), a non-streak
gift whose tip word is new records that word; the theorem classifies the
resulting record, whose distance is `max 1 (7 / 2) = 3`. -/
theorem C9_gift_distance_positive_witness :
    dictGet [98, 98] stSeven.guesses =
      some ⟨3, [117], [117], none⟩ ∨
    ((3 : Nat) = max 1 (lowestDistance stSeven.guesses / 2) ∧
      1 ≤ (3 : Nat) ∧ (3 : Nat) ≠ 0) :=
  (C9_gift_distance_positive stSeven emptyCache false false [117] [117]
      (fun _ => some [98, 98]) none).1 [98, 98] ⟨3, [117], [117], none⟩
    (by decide)

/- ===== C10 ===== -/

/-- C10: a streakable gift whose streak is still in progress is a complete
no-op: the handler returns the round state and the avatar cache unchanged,
emits no broadcast (hence the subscriber set, which only `broadcast_to_clients`
prunes, is untouched), and issues no external call. -/
theorem C10_streaking_gift_noop (g : GameState) (cache : CacheState)
    (user uid : PyStr) (tr : Nat → Option PyStr) (fa : Option PyStr) :
    on_gift g cache true true user uid tr fa =
      { game := g, cache := cache, broadcasts := [], calls := [] } := rfl
